import Mathlib

/-!
Verification of the `veracruz-project/nitro-enclave` repository.

Two crates are embedded:

* `raw-fd` (`src/raw-fd/src/lib.rs`): `send_buffer` / `receive_buffer`, a
  length-prefixed buffer protocol over a raw file descriptor.  The kernel
  socket is modelled by an explicit byte stream (`List Nat`, each element a
  byte) together with a schedule of I/O events (`Ev`): each `send`/`recv`
  call consumes one schedule event, which either delivers up to `k` bytes
  (`Ev.ok k`, capped by the requested amount and, for `recv`, by the bytes
  available on the stream) or fails with an errno (`Ev.err e`).  A loop that
  needs another call after the schedule is exhausted is modelled as
  `IOOut.hang` (the real loop would still be running).  `usize`/`u64`
  arithmetic is on 64-bit targets, so the `as u64` / `as usize` casts are
  value-preserving below `2 ^ 64`.

* `nitro-enclave` (`src/nitro-enclave/src/lib.rs`): `NitroEnclave::new` and
  the `Drop` implementation.  The external `nitro-cli` launcher is modelled
  by a list of per-invocation outcomes (`LaunchAttempt`): either the process
  could not be started (`spawnErr`, `Command::output()` returning `Err`) or
  it ran and produced an exit status plus stdout/stderr byte strings.
  `vsocket::VsockSocket::connect` is modelled as succeeding and recording
  its `(cid, port)` arguments in the returned handle.  `serde_json` parsing
  is embedded by an executable JSON parser for the JSON subset the launcher
  report uses (integer numbers; non-integer number lexemes are parsed as an
  opaque `numRaw` so that `is_number` remains faithful on them).
-/

namespace RawFd

/-- Outcome of one `send`/`recv` system call, as scheduled by the test
environment: `ok k` means the kernel transfers up to `k` bytes of the
requested range, `err e` means the call fails with errno `e`. -/
inductive Ev : Type
  | ok (k : Nat)
  | err (e : Nat)
deriving DecidableEq, Repr

/-- The errno value `EINTR` (interrupted system call). -/
def EINTR : Nat := 4

/-- Result of running one of the transfer functions against a schedule:
`ok a` is a normal return, `err e` an `Err` return carrying errno `e`, and
`hang` means the loop needed a further system call after the schedule was
exhausted (the real loop would still be spinning). -/
inductive IOOut (α : Type) : Type
  | ok (a : α)
  | err (e : Nat)
  | hang
deriving DecidableEq, Repr

/-- `byteorder`'s little-endian encoding: the low `k` bytes of `n`,
least-significant first (`LittleEndian::write_u64` is `writeLE 8`). -/
def writeLE : Nat → Nat → List Nat
  | 0, _ => []
  | k + 1, n => n % 256 :: writeLE k (n / 256)

/-- `byteorder`'s little-endian decoding of a whole byte list,
least-significant byte first. -/
def readLE : List Nat → Nat
  | [] => 0
  | b :: bs => b + 256 * readLE bs

/-- `LittleEndian::read_u64`: decode the first 8 bytes of the buffer. -/
def readU64LE (l : List Nat) : Nat := readLE (l.take 8)

/-- The first loop of `send_buffer` (lines 32-39): send the 9-byte buffer
`buf` holding the length field, starting from offset `sent`, appending the
bytes accepted by the kernel to `wire`.  Any `send` error — `EINTR`
included — is propagated by the `?` operator. -/
def sendLenLoop : List Ev → List Nat → Nat → List Nat → IOOut (List Nat × List Ev)
  | [], buf, sent, wire =>
      if buf.length ≤ sent then .ok (wire, []) else .hang
  | .ok k :: rest, buf, sent, wire =>
      if buf.length ≤ sent then .ok (wire, .ok k :: rest)
      else
        sendLenLoop rest buf (sent + min k (buf.length - sent))
          (wire ++ (buf.drop sent).take (min k (buf.length - sent)))
  | .err e :: rest, buf, sent, wire =>
      if buf.length ≤ sent then .ok (wire, .err e :: rest) else .err e

/-- The second loop of `send_buffer` (lines 41-53): send the payload,
counting `Err(EINTR)` as a transfer of zero bytes and retrying, and
propagating every other error. -/
def sendPayloadLoop : List Ev → List Nat → Nat → List Nat → IOOut (List Nat × List Ev)
  | [], buf, sent, wire =>
      if buf.length ≤ sent then .ok (wire, []) else .hang
  | .ok k :: rest, buf, sent, wire =>
      if buf.length ≤ sent then .ok (wire, .ok k :: rest)
      else
        sendPayloadLoop rest buf (sent + min k (buf.length - sent))
          (wire ++ (buf.drop sent).take (min k (buf.length - sent)))
  | .err e :: rest, buf, sent, wire =>
      if buf.length ≤ sent then .ok (wire, .err e :: rest)
      else if e = EINTR then sendPayloadLoop rest buf sent wire else .err e

/-- `send_buffer` (lines 29-55): write the length field — a 9-byte local
buffer `[0u8; 9]` whose first 8 bytes `LittleEndian::write_u64` fills with
`buffer.len() as u64`, the ninth byte remaining `0` — then the payload.
The returned value is the full byte sequence put on the wire. -/
def send_buffer (sched : List Ev) (buffer : List Nat) : IOOut (List Nat) :=
  match sendLenLoop sched (writeLE 8 buffer.length ++ [0]) 0 [] with
  | .hang => .hang
  | .err e => .err e
  | .ok (w1, sched1) =>
      match sendPayloadLoop sched1 buffer 0 [] with
      | .hang => .hang
      | .err e => .err e
      | .ok (w2, _) => .ok (w1 ++ w2)

/-- Both `recv` loops of `receive_buffer` (lines 64-74 and 79-90): read
until `need` bytes have been accumulated in `acc`, counting `Err(EINTR)` as
zero bytes received and retrying, and propagating every other error.  A
successful return carries the bytes read, the remaining stream and the
remaining schedule.  (The Rust code fills a pre-allocated zeroed buffer in
place; since the loop only exits successfully once every index is filled,
the returned vector equals the accumulated received bytes.) -/
def recvLoop : List Ev → List Nat → Nat → List Nat → IOOut (List Nat × List Nat × List Ev)
  | [], stream, need, acc =>
      if need ≤ acc.length then .ok (acc, stream, []) else .hang
  | .ok k :: rest, stream, need, acc =>
      if need ≤ acc.length then .ok (acc, stream, .ok k :: rest)
      else
        recvLoop rest (stream.drop (min (min k (need - acc.length)) stream.length)) need
          (acc ++ stream.take (min (min k (need - acc.length)) stream.length))
  | .err e :: rest, stream, need, acc =>
      if need ≤ acc.length then .ok (acc, stream, .err e :: rest)
      else if e = EINTR then recvLoop rest stream need acc else .err e

/-- `receive_buffer` (lines 59-93): read a 9-byte buffer `[0u8; 9]`, decode
its first 8 bytes with `LittleEndian::read_u64` (the `as usize` cast is the
identity on 64-bit targets), then read that many payload bytes. -/
def receive_buffer (sched : List Ev) (stream : List Nat) : IOOut (List Nat) :=
  match recvLoop sched stream 9 [] with
  | .hang => .hang
  | .err e => .err e
  | .ok (lenbytes, stream1, sched1) =>
      match recvLoop sched1 stream1 (readU64LE lenbytes) [] with
      | .hang => .hang
      | .err e => .err e
      | .ok (res, _, _) => .ok res

theorem writeLE_length (k n : Nat) : (writeLE k n).length = k := by
  induction k generalizing n with
  | zero => rfl
  | succ k ih => simp [writeLE, ih]

theorem readLE_writeLE (k n : Nat) : readLE (writeLE k n) = n % 256 ^ k := by
  induction k generalizing n with
  | zero => simp [writeLE, readLE, Nat.mod_one]
  | succ k ih =>
      rw [writeLE, readLE, ih, Nat.pow_succ', Nat.mod_mul]

theorem sendLenLoop_ok {sched : List Ev} {buf : List Nat} {sent : Nat}
    {wire w : List Nat} {sched' : List Ev}
    (h : sendLenLoop sched buf sent wire = .ok (w, sched')) :
    w = wire ++ buf.drop sent := by
  induction sched generalizing sent wire with
  | nil =>
      rw [sendLenLoop] at h
      split at h
      · cases h
        rename_i hle
        simp [List.drop_eq_nil_of_le hle]
      · cases h
  | cons ev rest ih =>
      cases ev with
      | ok k =>
          rw [sendLenLoop] at h
          split at h
          · cases h
            rename_i hle
            simp [List.drop_eq_nil_of_le hle]
          · have := ih h
            rw [this, List.append_assoc, List.drop_take_append_drop]
      | err e =>
          rw [sendLenLoop] at h
          split at h
          · cases h
            rename_i hle
            simp [List.drop_eq_nil_of_le hle]
          · cases h

theorem sendPayloadLoop_ok {sched : List Ev} {buf : List Nat} {sent : Nat}
    {wire w : List Nat} {sched' : List Ev}
    (h : sendPayloadLoop sched buf sent wire = .ok (w, sched')) :
    w = wire ++ buf.drop sent := by
  induction sched generalizing sent wire with
  | nil =>
      rw [sendPayloadLoop] at h
      split at h
      · cases h
        rename_i hle
        simp [List.drop_eq_nil_of_le hle]
      · cases h
  | cons ev rest ih =>
      cases ev with
      | ok k =>
          rw [sendPayloadLoop] at h
          split at h
          · cases h
            rename_i hle
            simp [List.drop_eq_nil_of_le hle]
          · have := ih h
            rw [this, List.append_assoc, List.drop_take_append_drop]
      | err e =>
          rw [sendPayloadLoop] at h
          split at h
          · cases h
            rename_i hle
            simp [List.drop_eq_nil_of_le hle]
          · split at h
            · exact ih h
            · cases h

/-- Characterisation of a completed `send_buffer` run: whatever the
schedule, the bytes put on the wire are the 8 little-endian length bytes,
one zero byte, then the payload. -/
theorem send_buffer_ok {sched : List Ev} {b wire : List Nat}
    (h : send_buffer sched b = .ok wire) :
    wire = writeLE 8 b.length ++ 0 :: b := by
  rw [send_buffer] at h
  cases h1 : sendLenLoop sched (writeLE 8 b.length ++ [0]) 0 [] with
  | hang => rw [h1] at h; cases h
  | err e => rw [h1] at h; cases h
  | ok p =>
      obtain ⟨w1, sched1⟩ := p
      rw [h1] at h
      dsimp only at h
      cases h2 : sendPayloadLoop sched1 b 0 [] with
      | hang => rw [h2] at h; cases h
      | err e => rw [h2] at h; cases h
      | ok q =>
          obtain ⟨w2, sched2⟩ := q
          rw [h2] at h
          dsimp only at h
          cases h
          have e1 := sendLenLoop_ok h1
          have e2 := sendPayloadLoop_ok h2
          simp at e1 e2
          simp [e1, e2]

theorem recvLoop_ok {sched : List Ev} {stream : List Nat} {need : Nat}
    {acc res stream' : List Nat} {sched' : List Ev}
    (h : recvLoop sched stream need acc = .ok (res, stream', sched')) :
    res = acc ++ stream.take (need - acc.length) ∧
      stream' = stream.drop (need - acc.length) ∧
      need ≤ acc.length + stream.length := by
  induction sched generalizing stream acc with
  | nil =>
      rw [recvLoop] at h
      split at h
      · cases h
        rename_i hle
        refine ⟨?_, ?_, Nat.le_trans hle (Nat.le_add_right _ _)⟩ <;>
          simp [Nat.sub_eq_zero_of_le hle]
      · cases h
  | cons ev rest ih =>
      cases ev with
      | ok k =>
          rw [recvLoop] at h
          split at h
          · cases h
            rename_i hle
            refine ⟨?_, ?_, Nat.le_trans hle (Nat.le_add_right _ _)⟩ <;>
              simp [Nat.sub_eq_zero_of_le hle]
          · obtain ⟨r1, r2, r3⟩ := ih h
            have hd : min (min k (need - acc.length)) stream.length ≤ stream.length :=
              Nat.min_le_right _ _
            have hdr : min (min k (need - acc.length)) stream.length ≤ need - acc.length :=
              Nat.le_trans (Nat.min_le_left _ _) (Nat.min_le_right _ _)
            set d := min (min k (need - acc.length)) stream.length with hdef
            have hlen : (acc ++ stream.take d).length = acc.length + d := by
              simp [Nat.min_eq_left hd]
            rw [hlen] at r1 r2 r3
            have harith : need - (acc.length + d) = need - acc.length - d := by omega
            refine ⟨?_, ?_, ?_⟩
            · rw [r1, List.append_assoc]
              congr 1
              rw [harith, ← List.take_add]
              congr 1
              omega
            · rw [r2, List.drop_drop, harith]
              congr 1
              omega
            · have hsl : (stream.drop d).length = stream.length - d := by simp
              omega
      | err e =>
          rw [recvLoop] at h
          split at h
          · cases h
            rename_i hle
            refine ⟨?_, ?_, Nat.le_trans hle (Nat.le_add_right _ _)⟩ <;>
              simp [Nat.sub_eq_zero_of_le hle]
          · split at h
            · exact ih h
            · cases h

/-- Characterisation of a completed `receive_buffer` run: the stream holds
at least the 9 header bytes, and the result is the following payload bytes,
as many as the `u64` decoded from the first 8 bytes of the header. -/
theorem receive_buffer_ok {sched : List Ev} {stream r : List Nat}
    (h : receive_buffer sched stream = .ok r) :
    9 ≤ stream.length ∧
      r = (stream.drop 9).take (readU64LE (stream.take 9)) := by
  rw [receive_buffer] at h
  cases h1 : recvLoop sched stream 9 [] with
  | hang => rw [h1] at h; cases h
  | err e => rw [h1] at h; cases h
  | ok p =>
      obtain ⟨lenbytes, stream1, sched1⟩ := p
      rw [h1] at h
      dsimp only at h
      cases h2 : recvLoop sched1 stream1 (readU64LE lenbytes) [] with
      | hang => rw [h2] at h; cases h
      | err e => rw [h2] at h; cases h
      | ok q =>
          obtain ⟨res, stream2, sched2⟩ := q
          rw [h2] at h
          dsimp only at h
          cases h
          obtain ⟨e1, e2, e3⟩ := recvLoop_ok h1
          obtain ⟨f1, f2, f3⟩ := recvLoop_ok h2
          simp at e1 e2 e3 f1 f2 f3
          constructor
          · exact e3
          · rw [f1, e1, e2]

theorem readU64LE_writeLE8 {n : Nat} (pad : Nat) (hn : n < 2 ^ 64) :
    readU64LE (writeLE 8 n ++ [pad]) = n := by
  have h8 : (writeLE 8 n).length = 8 := writeLE_length 8 n
  rw [readU64LE, List.take_left' h8, readLE_writeLE]
  have h2 : (256 : Nat) ^ 8 = 2 ^ 64 := by norm_num
  rw [h2]
  exact Nat.mod_eq_of_lt hn

/-- A completed `receive_buffer` run on a stream starting with the 8
little-endian bytes of `n` (with `n < 2 ^ 64`) and one further header byte
returns the next `n` bytes of the stream. -/
theorem receive_buffer_header {s2 : List Ev} {n pad : Nat} {rest r : List Nat}
    (hn : n < 2 ^ 64)
    (hr : receive_buffer s2 (writeLE 8 n ++ pad :: rest) = .ok r) :
    r = rest.take n := by
  have hsplit : writeLE 8 n ++ pad :: rest = (writeLE 8 n ++ [pad]) ++ rest := by simp
  rw [hsplit] at hr
  obtain ⟨h9, hr2⟩ := receive_buffer_ok hr
  have hlen9 : (writeLE 8 n ++ [pad]).length = 9 := by simp [writeLE_length]
  rw [List.take_left' hlen9, List.drop_left' hlen9, readU64LE_writeLE8 pad hn] at hr2
  exact hr2

/-- C1, counterexample: the length field on the wire is not 8 bytes wide.
Sending the empty buffer over a schedule accepting everything puts 9 bytes
(not 8) on the wire, and `receive_buffer` given exactly the 8-byte encoding
of the length `0` — the full message the claim describes — still needs a
further `recv` call after consuming all 8 bytes. -/
theorem send_length_field_not_eight_bytes :
    send_buffer [Ev.ok 9] [] = .ok (List.replicate 9 0) ∧
      (List.replicate 9 (0 : Nat)).length ≠ 8 ∧
      receive_buffer [Ev.ok 8, Ev.ok 8] (List.replicate 8 0) = .hang := by
  decide

/-- C1, amended: each message on the wire is a 9-byte header — the 8-byte
little-endian unsigned length followed by one zero byte — then exactly that
many payload bytes; `receive_buffer` obtains the length by reading exactly
9 bytes from the channel and decoding the first 8 of them. -/
theorem send_length_field_nine_bytes (b : List Nat) (s1 s2 : List Ev)
    (wire : List Nat) (n pad : Nat) (rest r : List Nat)
    (hn : n < 2 ^ 64)
    (hs : send_buffer s1 b = .ok wire)
    (hr : receive_buffer s2 (writeLE 8 n ++ pad :: rest) = .ok r) :
    wire = writeLE 8 b.length ++ 0 :: b ∧ r = rest.take n :=
  ⟨send_buffer_ok hs, receive_buffer_header hn hr⟩

theorem send_length_field_nine_bytes_witness :
    [5, 0, 0, 0, 0, 0, 0, 0, 0, 11, 22, 33, 44, 55] =
        writeLE 8 5 ++ 0 :: [11, 22, 33, 44, 55] ∧
      ([77, 88] : List Nat) = [77, 88, 99].take 2 :=
  send_length_field_nine_bytes [11, 22, 33, 44, 55] [Ev.ok 9, Ev.ok 5]
    [Ev.ok 9, Ev.ok 2] [5, 0, 0, 0, 0, 0, 0, 0, 0, 11, 22, 33, 44, 55] 2 6
    [77, 88, 99] [77, 88] (by norm_num) (by decide) (by decide)

/-- C2: round-trip fidelity.  For every buffer `b` (of length below
`2 ^ 64`, the range of the `u64` length field), any completed
`send_buffer` run — under an arbitrary schedule of short writes — puts a
wire sequence on the channel from which any completed `receive_buffer` run
— under an arbitrary schedule of short reads — returns exactly `b`. -/
theorem send_receive_roundtrip (b : List Nat) (s1 s2 : List Ev)
    (wire r : List Nat)
    (hlen : b.length < 2 ^ 64)
    (hs : send_buffer s1 b = .ok wire)
    (hr : receive_buffer s2 wire = .ok r) : r = b := by
  have hw := send_buffer_ok hs
  rw [hw] at hr
  rw [receive_buffer_header hlen hr]
  exact List.take_length b

theorem send_receive_roundtrip_witness : ([7, 7] : List Nat) = [7, 7] :=
  send_receive_roundtrip [7, 7] [Ev.ok 9, Ev.ok 1, Ev.ok 1]
    [Ev.ok 4, Ev.ok 5, Ev.ok 1, Ev.ok 2] [2, 0, 0, 0, 0, 0, 0, 0, 0, 7, 7]
    [7, 7] (by norm_num) (by decide) (by decide)

/-- C3: EINTR handling is asymmetric, contradicting the claim that every
phase retries it.  Evaluating the model at the failing input: an `EINTR`
during the length-field loop of `send_buffer` is surfaced as a fatal error
(first conjunct), while the payload loop of `send_buffer` and both loops of
`receive_buffer` retry it with zero bytes counted (remaining conjuncts). -/
theorem send_length_phase_eintr_fatal :
    send_buffer [Ev.err 4] [0] = .err 4 ∧
      sendPayloadLoop [Ev.err 4, Ev.ok 1] [5] 0 [] = .ok ([5], []) ∧
      receive_buffer [Ev.err 4, Ev.ok 9, Ev.err 4, Ev.ok 1]
          (writeLE 8 1 ++ 0 :: [7]) = .ok [7] := by
  decide

/-- C9: whenever the header phase of `receive_buffer` completes on a
stream whose length field decodes to zero, the whole call returns the
empty buffer as a valid (non-error) result, and the payload loop — invoked
with `need = 0` — returns at once, consuming no schedule event and no
stream byte (no payload reads). -/
theorem receive_zero_length_empty (sched sc : List Ev) (st lenbytes : List Nat)
    (pad : Nat) (rest : List Nat)
    (h : recvLoop sched (writeLE 8 0 ++ pad :: rest) 9 [] = .ok (lenbytes, st, sc)) :
    receive_buffer sched (writeLE 8 0 ++ pad :: rest) = .ok [] ∧
      recvLoop sc st 0 [] = .ok ([], st, sc) := by
  have hz : ∀ (sc2 : List Ev) (st2 : List Nat), recvLoop sc2 st2 0 [] = .ok ([], st2, sc2) := by
    intro sc2 st2
    cases sc2 with
    | nil => rfl
    | cons ev r2 => cases ev <;> rfl
  obtain ⟨e1, e2, e3⟩ := recvLoop_ok h
  simp only [List.length_nil, Nat.sub_zero, List.nil_append] at e1
  have hlen9 : (writeLE 8 0 ++ [pad]).length = 9 := by simp [writeLE_length]
  have hsplit : writeLE 8 0 ++ pad :: rest = (writeLE 8 0 ++ [pad]) ++ rest := by simp
  have hread : readU64LE lenbytes = 0 := by
    rw [e1, hsplit, List.take_left' hlen9, readU64LE_writeLE8 pad (by norm_num)]
  refine ⟨?_, hz sc st⟩
  rw [receive_buffer, h]
  dsimp only
  rw [hread, hz sc st]

theorem receive_zero_length_empty_witness :
    receive_buffer [Ev.ok 9] (writeLE 8 0 ++ 0 :: [1, 2]) = .ok [] ∧
      recvLoop [] [1, 2] 0 [] = .ok ([], [1, 2], []) :=
  receive_zero_length_empty [Ev.ok 9] [] [1, 2] (List.replicate 9 0) 0 [1, 2] (by decide)

end RawFd

namespace Nitro

/-- Whether `b` is a UTF-8 continuation byte (`0x80..0xBF`). -/
def utf8Cont (b : Nat) : Bool := 128 ≤ b && b ≤ 191

/-- One step of Rust's strict UTF-8 decoding (RFC 3629, as enforced by
`std::str::from_utf8`): decode one scalar value from the front of the byte
list, rejecting overlong forms, surrogates and values above `0x10FFFF`. -/
def utf8Step : List Nat → Option (Nat × List Nat)
  | [] => none
  | b0 :: r =>
      if b0 < 128 then some (b0, r)
      else if b0 < 194 then none
      else if b0 ≤ 223 then
        match r with
        | c1 :: r1 =>
            if utf8Cont c1 then some ((b0 - 192) * 64 + (c1 - 128), r1) else none
        | [] => none
      else if b0 ≤ 239 then
        match r with
        | c1 :: c2 :: r2 =>
            if (if b0 = 224 then 160 else 128) ≤ c1 &&
                c1 ≤ (if b0 = 237 then 159 else 191) && utf8Cont c2 then
              some ((b0 - 224) * 4096 + (c1 - 128) * 64 + (c2 - 128), r2)
            else none
        | _ => none
      else if b0 ≤ 244 then
        match r with
        | c1 :: c2 :: c3 :: r3 =>
            if (if b0 = 240 then 144 else 128) ≤ c1 &&
                c1 ≤ (if b0 = 244 then 143 else 191) && utf8Cont c2 && utf8Cont c3 then
              some ((b0 - 240) * 262144 + (c1 - 128) * 4096 + (c2 - 128) * 64 + (c3 - 128), r3)
            else none
        | _ => none
      else none

/-- Run `utf8Step` to exhaustion.  Each step consumes at least one byte, so
a fuel equal to the byte count (as supplied by `utf8Decode`) never runs
out. -/
def utf8DecodeAux : Nat → List Nat → Option (List Char)
  | _, [] => some []
  | 0, _ :: _ => none
  | fuel + 1, b :: r =>
      match utf8Step (b :: r) with
      | none => none
      | some (cp, r1) => (utf8DecodeAux fuel r1).map (fun cs => Char.ofNat cp :: cs)

/-- `std::str::from_utf8` on a byte slice, as the decoded characters. -/
def utf8Decode (l : List Nat) : Option (List Char) := utf8DecodeAux l.length l

/-- Whether a byte slice is valid UTF-8 (`std::str::from_utf8(..).is_ok()`). -/
def isUtf8 (l : List Nat) : Bool := (utf8Decode l).isSome

/-- `std::str::from_utf8` on a byte slice, as a `String`. -/
def decodeUtf8Str (l : List Nat) : Option String :=
  (utf8Decode l).map (fun cs => String.mk cs)

/-- The byte encoding of an ASCII string (used to write concrete launcher
reports). -/
def asciiBytes (s : String) : List Nat := s.toList.map Char.toNat

/-- `serde_json::Value`.  JSON numbers with a fraction or exponent part are
kept as their raw lexeme (`numRaw`): the launcher report only ever carries
integers, and for the embedded operations (`is_number`,
`from_value::<u32>`, `to_string`) the lexeme is all that is needed. -/
inductive Json : Type
  | null
  | bool (b : Bool)
  | num (n : Int)
  | numRaw (lex : String)
  | str (s : String)
  | arr (elems : List Json)
  | obj (members : List (String × Json))
deriving Repr

/-- JSON whitespace. -/
def isWsChar (c : Char) : Bool := c = ' ' || c = '\t' || c = '\n' || c = '\r'

def skipWs (s : List Char) : List Char := s.dropWhile isWsChar

def isDigitChar (c : Char) : Bool := '0' ≤ c && c ≤ '9'

def hexVal (c : Char) : Option Nat :=
  if '0' ≤ c && c ≤ '9' then some (c.toNat - 48)
  else if 'a' ≤ c && c ≤ 'f' then some (c.toNat - 87)
  else if 'A' ≤ c && c ≤ 'F' then some (c.toNat - 55)
  else none

/-- The opening curly bracket character. -/
def lbrace : Char := Char.ofNat 123

/-- The closing curly bracket character. -/
def rbrace : Char := Char.ofNat 125

/-- Parse the body of a JSON string after the opening quote, handling the
standard escapes, `\uXXXX` escapes with surrogate pairs, and rejecting raw
control characters, as `serde_json` does.  Each step consumes at least one
character, so a fuel of the input length plus one suffices. -/
def parseStringBody : Nat → List Char → Option (List Char × List Char)
  | 0, _ => none
  | _ + 1, [] => none
  | fuel + 1, c :: r =>
      if c = '"' then some ([], r)
      else if c = '\\' then
        match r with
        | [] => none
        | e :: r1 =>
            if e = '"' || e = '\\' || e = '/' then
              (parseStringBody fuel r1).map (fun p => (e :: p.1, p.2))
            else if e = 'b' then
              (parseStringBody fuel r1).map (fun p => (Char.ofNat 8 :: p.1, p.2))
            else if e = 'f' then
              (parseStringBody fuel r1).map (fun p => (Char.ofNat 12 :: p.1, p.2))
            else if e = 'n' then
              (parseStringBody fuel r1).map (fun p => ('\n' :: p.1, p.2))
            else if e = 'r' then
              (parseStringBody fuel r1).map (fun p => ('\r' :: p.1, p.2))
            else if e = 't' then
              (parseStringBody fuel r1).map (fun p => ('\t' :: p.1, p.2))
            else if e = 'u' then
              match r1 with
              | h1 :: h2 :: h3 :: h4 :: r2 =>
                  match hexVal h1, hexVal h2, hexVal h3, hexVal h4 with
                  | some v1, some v2, some v3, some v4 =>
                      if ((v1 * 16 + v2) * 16 + v3) * 16 + v4 < 55296 ∨
                          57343 < ((v1 * 16 + v2) * 16 + v3) * 16 + v4 then
                        (parseStringBody fuel r2).map
                          (fun p => (Char.ofNat (((v1 * 16 + v2) * 16 + v3) * 16 + v4) :: p.1, p.2))
                      else if ((v1 * 16 + v2) * 16 + v3) * 16 + v4 ≤ 56319 then
                        match r2 with
                        | u1 :: u2 :: h5 :: h6 :: h7 :: h8 :: r3 =>
                            if u1 = '\\' && u2 = 'u' then
                              match hexVal h5, hexVal h6, hexVal h7, hexVal h8 with
                              | some w1, some w2, some w3, some w4 =>
                                  if 56320 ≤ ((w1 * 16 + w2) * 16 + w3) * 16 + w4 &&
                                      ((w1 * 16 + w2) * 16 + w3) * 16 + w4 ≤ 57343 then
                                    (parseStringBody fuel r3).map
                                      (fun p =>
                                        (Char.ofNat (65536 +
                                            (((v1 * 16 + v2) * 16 + v3) * 16 + v4 - 55296) * 1024 +
                                            (((w1 * 16 + w2) * 16 + w3) * 16 + w4 - 56320)) :: p.1,
                                          p.2))
                                  else none
                              | _, _, _, _ => none
                            else none
                        | _ => none
                      else none
                  | _, _, _, _ => none
              | _ => none
            else none
      else if c.toNat < 32 then none
      else (parseStringBody fuel r).map (fun p => (c :: p.1, p.2))

def digitsToNat (ds : List Char) : Nat :=
  ds.foldl (fun a c => a * 10 + (c.toNat - 48)) 0

def isNumTailChar (c : Char) : Bool :=
  isDigitChar c || c = '.' || c = 'e' || c = 'E' || c = '+' || c = '-'

/-- Parse a JSON number.  An optional minus sign and a digit run without a
leading zero give an exact integer; a number continuing with a fraction or
exponent part is kept as its raw lexeme (`numRaw`). -/
def parseNumber (s : List Char) : Option (Json × List Char) :=
  let neg : Bool := match s with
    | c :: _ => c = '-'
    | [] => false
  let s1 := if neg then s.drop 1 else s
  let ds := s1.takeWhile isDigitChar
  let r1 := s1.dropWhile isDigitChar
  if ds.isEmpty then none
  else if 1 < ds.length && ds.headD '0' = '0' then none
  else
    let val : Int := if neg then -Int.ofNat (digitsToNat ds) else Int.ofNat (digitsToNat ds)
    match r1 with
    | c :: _ =>
        if c = '.' || c = 'e' || c = 'E' then
          some (.numRaw (String.mk ((if neg then ['-'] else []) ++ ds ++ r1.takeWhile isNumTailChar)),
            r1.dropWhile isNumTailChar)
        else some (.num val, r1)
    | [] => some (.num val, [])

/-- A pending task of the recursive-descent JSON parser: parse one value,
the remaining elements of an array, or the remaining members of an
object. -/
inductive PTask : Type
  | value (s : List Char)
  | elems (s : List Char) (acc : List Json)
  | members (s : List Char) (acc : List (String × Json))

/-- `serde_json`-style recursive-descent parser over a fuel that bounds the
recursion depth (`jsonParse` supplies a fuel that can never run out). -/
def parseF : Nat → PTask → Option (Json × List Char)
  | 0, _ => none
  | fuel + 1, .value s =>
      match skipWs s with
      | [] => none
      | c :: r =>
          if c = 'n' then
            match r with
            | x1 :: x2 :: x3 :: r2 =>
                if x1 = 'u' && x2 = 'l' && x3 = 'l' then some (.null, r2) else none
            | _ => none
          else if c = 't' then
            match r with
            | x1 :: x2 :: x3 :: r2 =>
                if x1 = 'r' && x2 = 'u' && x3 = 'e' then some (.bool true, r2) else none
            | _ => none
          else if c = 'f' then
            match r with
            | x1 :: x2 :: x3 :: x4 :: r2 =>
                if x1 = 'a' && x2 = 'l' && x3 = 's' && x4 = 'e' then some (.bool false, r2)
                else none
            | _ => none
          else if c = '"' then
            (parseStringBody (r.length + 1) r).map (fun p => (.str (String.mk p.1), p.2))
          else if c = '[' then
            match skipWs r with
            | ']' :: r2 => some (.arr [], r2)
            | r2 => parseF fuel (.elems r2 [])
          else if c = lbrace then
            match skipWs r with
            | c2 :: r2 =>
                if c2 = rbrace then some (.obj [], r2)
                else parseF fuel (.members (c2 :: r2) [])
            | [] => none
          else if c = '-' || isDigitChar c then parseNumber (c :: r)
          else none
  | fuel + 1, .elems s acc =>
      match parseF fuel (.value s) with
      | none => none
      | some (j, r) =>
          match skipWs r with
          | c :: r2 =>
              if c = ',' then parseF fuel (.elems r2 (acc ++ [j]))
              else if c = ']' then some (.arr (acc ++ [j]), r2)
              else none
          | [] => none
  | fuel + 1, .members s acc =>
      match skipWs s with
      | c :: r =>
          if c = '"' then
            match parseStringBody (r.length + 1) r with
            | none => none
            | some (k, r2) =>
                match skipWs r2 with
                | c2 :: r3 =>
                    if c2 = ':' then
                      match parseF fuel (.value r3) with
                      | none => none
                      | some (v, r4) =>
                          match skipWs r4 with
                          | c3 :: r5 =>
                              if c3 = ',' then
                                parseF fuel (.members r5 (acc ++ [(String.mk k, v)]))
                              else if c3 = rbrace then
                                some (.obj (acc ++ [(String.mk k, v)]), r5)
                              else none
                          | [] => none
                    else none
                | [] => none
          else none
      | [] => none

/-- `serde_json::from_str`: parse one JSON value and require only
whitespace to follow. -/
def jsonParse (s : String) : Option Json :=
  match parseF (2 * s.length + 8) (.value s.toList) with
  | some (j, r) => if skipWs r = [] then some j else none
  | none => none

def hexDigitChar (n : Nat) : Char :=
  if n < 10 then Char.ofNat (48 + n) else Char.ofNat (87 + n)

/-- `serde_json`'s escaping of one character inside a serialized string. -/
def escapeChar (c : Char) : List Char :=
  if c = '"' then ['\\', '"']
  else if c = '\\' then ['\\', '\\']
  else if c = Char.ofNat 8 then ['\\', 'b']
  else if c = '\t' then ['\\', 't']
  else if c = '\n' then ['\\', 'n']
  else if c = Char.ofNat 12 then ['\\', 'f']
  else if c = '\r' then ['\\', 'r']
  else if c.toNat < 32 then
    ['\\', 'u', '0', '0', hexDigitChar (c.toNat / 16), hexDigitChar (c.toNat % 16)]
  else [c]

def escapeString (s : String) : String :=
  String.mk (s.toList.map escapeChar).flatten

mutual

/-- `serde_json`'s compact serialization (`Value::to_string`). -/
def Json.serialize : Json → String
  | .null => "null"
  | .bool b => if b then "true" else "false"
  | .num n => toString n
  | .numRaw lex => lex
  | .str s => "\"" ++ escapeString s ++ "\""
  | .arr xs => "[" ++ serializeElems xs ++ "]"
  | .obj ms => String.mk [lbrace] ++ serializeMembers ms ++ String.mk [rbrace]

/-- Comma-separated serialization of array elements. -/
def serializeElems : List Json → String
  | [] => ""
  | [x] => Json.serialize x
  | x :: y :: rest => Json.serialize x ++ "," ++ serializeElems (y :: rest)

/-- Comma-separated serialization of object members. -/
def serializeMembers : List (String × Json) → String
  | [] => ""
  | [(k, v)] => "\"" ++ escapeString k ++ "\":" ++ Json.serialize v
  | (k, v) :: m :: rest =>
      "\"" ++ escapeString k ++ "\":" ++ Json.serialize v ++ "," ++ serializeMembers (m :: rest)

end

/-- `serde_json`'s `Index<&str>` on a `Value` (`enclave_data["key"]`): on
an object, the value bound to the key (the last binding, as in serde's
map, which overwrites duplicates on insertion); `Value::Null` on a missing
key or a non-object. -/
def jsonIndex (j : Json) (k : String) : Json :=
  match j with
  | .obj ms => (ms.foldl (fun acc m => if m.1 = k then some m.2 else acc) none).getD .null
  | _ => .null

/-- `serde_json::Value::is_number`. -/
def Json.isNumber : Json → Bool
  | .num _ => true
  | .numRaw _ => true
  | _ => false

/-- `serde_json::from_value::<u32>`: succeeds exactly on integer JSON
numbers in `[0, 2 ^ 32)`. -/
def fromValueU32 : Json → Option Nat
  | .num n => if 0 ≤ n ∧ n < 4294967296 then some n.toNat else none
  | _ => none

/-- Rust's `str::trim_matches` with a `char` pattern: remove every leading
and trailing occurrence of the character. -/
def trimMatches (c : Char) (s : String) : String :=
  String.mk (((s.toList.dropWhile (fun x => x = c)).reverse.dropWhile (fun x => x = c)).reverse)

/-- The captured output of one completed launcher invocation: the exit
status success flag and the raw stdout/stderr bytes. -/
structure LaunchOut : Type where
  success : Bool
  stdout : List Nat
  stderr : List Nat
deriving DecidableEq, Repr

/-- One `Command::output()` call on the `nitro-cli` launcher: either the
process could not be started (`Err` from `output()`) or it ran to
completion. -/
inductive LaunchAttempt : Type
  | spawnErr
  | out (o : LaunchOut)
deriving DecidableEq, Repr

/-- The error values `NitroEnclave::new` can return: a failed
`std::str::from_utf8(..)?`, a failed `serde_json::from_str(..)?`, or
`NitroError::SerdeError` for a missing or non-numeric `EnclaveCID`. -/
inductive NewErr : Type
  | utf8Err
  | jsonErr
  | serdeError
deriving DecidableEq, Repr

/-- Observable outcome of `NitroEnclave::new` against a list of launcher
invocation outcomes: a constructed handle (its stored `enclave_id`, and the
`cid` and `port` passed to `VsockSocket::connect`), an `Err` return, a
panic (a failed `unwrap`), or still retrying after every listed attempt
(`hang`). -/
inductive NewResult : Type
  | ok (enclave_id : String) (cid : Nat) (port : Nat)
  | err (e : NewErr)
  | panic
  | hang
deriving DecidableEq, Repr

/-- Outcome of the retry loop in `NitroEnclave::new` (lines 68-92). -/
inductive LoopRes : Type
  | broke (stdout : List Nat)
  | errUtf8
  | hung
deriving DecidableEq, Repr

/-- The retry loop of `NitroEnclave::new` (lines 68-92): a failed spawn
sleeps and retries; a non-success exit status decodes its stderr for
logging (`std::str::from_utf8(&result.stderr)?` — the decode error is
propagated), then sleeps and retries; a success exit breaks with the
stdout bytes.  The second component counts launcher invocations made. -/
def newLoop : List LaunchAttempt → LoopRes × Nat
  | [] => (.hung, 0)
  | .spawnErr :: rest => ((newLoop rest).1, (newLoop rest).2 + 1)
  | .out o :: rest =>
      if o.success then (.broke o.stdout, 1)
      else if isUtf8 o.stderr then ((newLoop rest).1, (newLoop rest).2 + 1)
      else (.errUtf8, 1)

/-- `NitroEnclave::new` (lines 54-117), abstracting the launcher behind the
attempt list: after the retry loop breaks, stdout is UTF-8 decoded (`?`),
parsed as JSON (`?`), the `EnclaveCID` field is required to be a number
(else `Err(SerdeError)`) and converted through
`serde_json::from_value::<u32>(..).unwrap()` (panicking when the number is
not a `u32`), the vsock connection is made to `(cid, port)`, and the
handle stores `enclave_data["EnclaveID"].to_string().trim_matches('"')`. -/
def NitroEnclave.new (attempts : List LaunchAttempt) (port : Nat) : NewResult :=
  match (newLoop attempts).1 with
  | .hung => .hang
  | .errUtf8 => .err .utf8Err
  | .broke stdout =>
      match decodeUtf8Str stdout with
      | none => .err .utf8Err
      | some outStr =>
          match jsonParse outStr with
          | none => .err .jsonErr
          | some enclave_data =>
              if !(jsonIndex enclave_data "EnclaveCID").isNumber then .err .serdeError
              else
                match fromValueU32 (jsonIndex enclave_data "EnclaveCID") with
                | none => .panic
                | some cid =>
                    .ok (trimMatches '"' (Json.serialize (jsonIndex enclave_data "EnclaveID")))
                      cid port

/-- Observable outcome of the `Drop` impl: a normal return (`break`
reached), a panic (the `unwrap` of `from_utf8(&result.stderr)` failed), or
still retrying after every listed attempt. -/
inductive DropResult : Type
  | ok
  | panicked
  | hung
deriving DecidableEq, Repr

/-- The `Drop` impl for `NitroEnclave` (lines 133-155): a failed spawn of
the terminate command sleeps and retries; once the command runs, a
non-success exit status logs a hard warning, decodes stderr with
`from_utf8(..).unwrap()` (panicking on invalid UTF-8) and logs it; in every
ran case the loop breaks.  The second component counts terminate
invocations made. -/
def NitroEnclave.drop : List LaunchAttempt → DropResult × Nat
  | [] => (.hung, 0)
  | .spawnErr :: rest => ((NitroEnclave.drop rest).1, (NitroEnclave.drop rest).2 + 1)
  | .out o :: _ =>
      if o.success then (.ok, 1)
      else if isUtf8 o.stderr then (.ok, 1)
      else (.panicked, 1)

/-- C4, counterexample: a launcher run that exits with a non-success
status whose stderr bytes are not valid UTF-8 (the single byte `0xFF`) is
not retried — even though the very next attempt would succeed — and is
surfaced as a terminal error from create, which is not a parse failure of
the report. -/
theorem new_nonsuccess_exit_surfaces_error :
    NitroEnclave.new
        [.out ⟨false, [], [255]⟩,
          .out ⟨true, asciiBytes "\x7b\"EnclaveID\": \"x\", \"EnclaveCID\": 3\x7d", []⟩]
        5005 = .err .utf8Err := by
  decide

/-- C4, amended: during create, a launcher that fails to start is always
retried, and a non-success exit status is retried provided its stderr
bytes are valid UTF-8; a non-success exit whose stderr is not valid UTF-8
is surfaced as an error from create instead of being retried. -/
theorem new_retry_and_nonutf8_stderr (o : LaunchOut) (rest : List LaunchAttempt)
    (port : Nat) :
    NitroEnclave.new (.spawnErr :: rest) port = NitroEnclave.new rest port ∧
      (o.success = false → isUtf8 o.stderr = true →
        NitroEnclave.new (.out o :: rest) port = NitroEnclave.new rest port) ∧
      (o.success = false → isUtf8 o.stderr = false →
        NitroEnclave.new (.out o :: rest) port = .err .utf8Err) := by
  refine ⟨?_, fun h1 h2 => ?_, fun h1 h2 => ?_⟩
  · simp [NitroEnclave.new, newLoop]
  · simp [NitroEnclave.new, newLoop, h1, h2]
  · simp [NitroEnclave.new, newLoop, h1, h2]

theorem new_retry_and_nonutf8_stderr_witness :
    (NitroEnclave.new [LaunchAttempt.spawnErr] 9 = NitroEnclave.new [] 9) ∧
      (NitroEnclave.new [.out ⟨false, [], asciiBytes "oops"⟩] 9 = NitroEnclave.new [] 9) ∧
      (NitroEnclave.new [.out ⟨false, [], [255]⟩] 9 = .err .utf8Err) :=
  ⟨(new_retry_and_nonutf8_stderr ⟨false, [], asciiBytes "oops"⟩ [] 9).1,
    (new_retry_and_nonutf8_stderr ⟨false, [], asciiBytes "oops"⟩ [] 9).2.1 rfl (by decide),
    (new_retry_and_nonutf8_stderr ⟨false, [], [255]⟩ [] 9).2.2 rfl (by decide)⟩

/-- C5: once a launcher run succeeds, if the parsed report's `EnclaveCID`
field is missing or not a number (`jsonIndex` yields `Value::Null` on a
missing key, and `is_number` is false on it), create returns
`Err(SerdeError)` at once: the result does not depend on any further
attempts, and exactly one launcher invocation was made. -/
theorem new_cid_not_number_fails_fast (o : LaunchOut) (rest : List LaunchAttempt)
    (port : Nat) (j : Json)
    (h1 : o.success = true)
    (h2 : (decodeUtf8Str o.stdout).bind jsonParse = some j)
    (h3 : (jsonIndex j "EnclaveCID").isNumber = false) :
    NitroEnclave.new (.out o :: rest) port = .err .serdeError ∧
      (newLoop (.out o :: rest)).2 = 1 := by
  constructor
  · cases hd : decodeUtf8Str o.stdout with
    | none => rw [hd] at h2; cases h2
    | some str =>
        rw [hd] at h2
        simp only [Option.some_bind] at h2
        simp [NitroEnclave.new, newLoop, h1, hd, h2, h3]
  · have hnl : newLoop (.out o :: rest) = (.broke o.stdout, 1) := by
      simp [newLoop, h1]
    rw [hnl]

theorem new_cid_not_number_fails_fast_witness :
    (NitroEnclave.new [.out ⟨true, asciiBytes "\x7b\"EnclaveCID\": \"notanumber\"\x7d", []⟩] 0 =
        .err .serdeError) ∧
      (newLoop [.out ⟨true, asciiBytes "\x7b\"EnclaveCID\": \"notanumber\"\x7d", []⟩]).2 = 1 :=
  new_cid_not_number_fails_fast ⟨true, asciiBytes "\x7b\"EnclaveCID\": \"notanumber\"\x7d", []⟩
    [] 0 (Json.obj [("EnclaveCID", Json.str "notanumber")]) rfl (by rfl) (by rfl)

/-- C6: evaluating the `Drop` impl at the failing input — the terminate
command runs, reports a non-success exit status and emits the non-UTF-8
stderr byte `0xFF` — the destructor panics (the `unwrap` of
`from_utf8(&result.stderr)` fails) instead of completing as best-effort
cleanup. -/
theorem drop_panics_on_nonutf8_stderr :
    NitroEnclave.drop [.out ⟨false, [], [255]⟩] = (.panicked, 1) := by
  decide

/-- C7: the `Drop` impl retries while the terminate command cannot be
started (any number `k` of spawn failures), and stops at the first attempt
where the launcher actually ran — regardless of its exit status and of any
further attempts — having made exactly `k + 1` invocations, of which
exactly one ran. -/
theorem drop_single_ran_invocation (k : Nat) (o : LaunchOut)
    (rest : List LaunchAttempt) :
    NitroEnclave.drop (List.replicate k .spawnErr ++ .out o :: rest) =
      ((if o.success then DropResult.ok
        else if isUtf8 o.stderr then DropResult.ok else DropResult.panicked), k + 1) := by
  induction k with
  | zero =>
      cases hsuc : o.success <;> cases hu : isUtf8 o.stderr <;>
        simp [NitroEnclave.drop, hsuc, hu]
  | succ k ih => simp [List.replicate_succ, NitroEnclave.drop, ih]

/-- C8: on the launcher report from the claim and channel port 5005,
create connects the vsock channel to address 42 on port 5005 and the
returned handle stores exactly `i-abc-enc123` — the serde `to_string` of
the `EnclaveID` value with the surrounding quote characters trimmed. -/
theorem new_concrete_report_ok :
    NitroEnclave.new
        [.out ⟨true, asciiBytes "\x7b\"EnclaveID\": \"i-abc-enc123\", \"EnclaveCID\": 42\x7d", []⟩]
        5005 = .ok "i-abc-enc123" 42 5005 := by
  decide

/-- C10: on launcher reports whose `EnclaveCID` is numeric but not
representable as a `u32` — negative, or `2 ^ 32` and larger — create
panics at the `from_value::<u32>(..).unwrap()` conversion instead of
returning an error value. -/
theorem new_cid_out_of_range_panics :
    NitroEnclave.new
        [.out ⟨true, asciiBytes "\x7b\"EnclaveID\": \"x\", \"EnclaveCID\": -1\x7d", []⟩]
        5005 = .panic ∧
      NitroEnclave.new
        [.out ⟨true, asciiBytes "\x7b\"EnclaveID\": \"x\", \"EnclaveCID\": 4294967296\x7d", []⟩]
        5005 = .panic := by
  decide

end Nitro
